import Mathlib

/-!
Shallow embedding of `src/gifsplit.c`: the PNG still-image encoder
(`write_image`) and the driver loop (`main`). Pixel buffers are byte lists,
pointers into the row-pointer scratch array are byte offsets from the frame's
raster base, and the environment-dependent failure points of `write_image`
(`fopen`, `png_create_write_struct`, `png_create_info_struct`, and a libpng
internal error caught at the `setjmp` handler) are made explicit as an `Env`
record of oracles.
-/

/-- An RGB triple, as in giflib's `GifColorType` / libpng's `png_color`. -/
abbrev RGB := Nat × Nat × Nat

/-- giflib's `ColorMapObject`: the fields `write_image` reads. -/
structure ColorMapObject where
  BitsPerPixel : Nat
  ColorCount : Nat
  Colors : List RGB
deriving DecidableEq, Repr

/-- libgifsplit's `GifSplitImage`: the fields the program reads. -/
structure GifSplitImage where
  IsTruecolor : Bool
  Width : Nat
  Height : Nat
  ColorMap : Option ColorMapObject
  TransparentColorIndex : Int
  RasterData : List Nat
  DelayTime : Nat
  UsedLocalColormap : Bool
deriving DecidableEq, Repr

/-- The loop at gifsplit.c:121-122: `while (bpp & (bpp - 1)) bpp++;`
run with explicit fuel (the C loop is unbounded; 256 steps are far more
than the 8-bit inputs the program feeds it can consume). -/
def roundBppAux (fuel : Nat) (bpp : Nat) : Nat :=
  match fuel with
  | 0 => bpp
  | n + 1 => if bpp &&& (bpp - 1) ≠ 0 then roundBppAux n (bpp + 1) else bpp

/-- Bit-depth rounding on the indexed path (gifsplit.c:119-122). -/
def roundBpp (bpp : Nat) : Nat := roundBppAux 256 bpp

/-- The transparency buffer built at gifsplit.c:131-133 as the writer sees it:
`memset(trans_alpha, 255, k)` then `trans_alpha[k] = 0`, passed with
length `k + 1`. -/
def trans_alpha (k : Nat) : List Nat := List.replicate k 255 ++ [0]

/-- Everything `write_image` hands to libpng for one frame before the rows:
the IHDR parameters, optional PLTE palette, optional tRNS table, the row
stride, and the transform flag of `png_write_png` (gifsplit.c:110-138,147). -/
structure PngWrite where
  width : Nat
  height : Nat
  bitDepth : Nat
  colorType : Nat
  palette : Option (List RGB)
  trans : Option (List Nat)
  stride : Nat
  packing : Bool
deriving DecidableEq, Repr

/-- The branch of `write_image` between `png_init_io` and the row loop
(gifsplit.c:110-138): truecolor gets RGBA depth 8 and stride `4*Width`;
indexed asserts the colormap (`none` result = the assert fires), rounds the
bit depth, passes the palette pointer with `ColorCount` entries, and emits
the minimized transparency table unless the index is the `-1` sentinel. -/
def encodeCalls (img : GifSplitImage) : Option PngWrite :=
  if img.IsTruecolor then
    some { width := img.Width, height := img.Height, bitDepth := 8,
           colorType := 6, palette := none, trans := none,
           stride := 4 * img.Width, packing := false }
  else
    match img.ColorMap with
    | none => none
    | some cm =>
      some { width := img.Width, height := img.Height,
             bitDepth := roundBpp cm.BitsPerPixel, colorType := 3,
             palette := some (cm.Colors.take cm.ColorCount),
             trans := if img.TransparentColorIndex ≠ -1 then
                        some (trans_alpha img.TransparentColorIndex.toNat)
                      else none,
             stride := img.Width, packing := true }

/-- The row-pointer loop at gifsplit.c:140-144: `row_pointers[i] = p; p += stride`
for `i` in `[0, height)`, with `p` the offset from `RasterData`. Writes past
the end of the scratch list are dropped (`List.set` out of range), where the C
writes out of bounds. -/
def fillRowsAux (stride : Nat) : Nat → Nat → Nat → List Nat → List Nat
  | 0, _, _, s => s
  | n + 1, i, p, s => fillRowsAux stride n (i + 1) (p + stride) (s.set i p)

/-- Fill the first `height` entries of the scratch array with row offsets. -/
def fillRows (stride height : Nat) (s : List Nat) : List Nat :=
  fillRowsAux stride height 0 0 s

/-- Oracles for the environment-dependent failure points of `write_image`. -/
structure Env where
  fopenOk : Bool
  createOk : Bool
  infoOk : Bool
  pngLibError : Bool
  bytesWritten : List Nat
deriving DecidableEq, Repr

/-- What happened to the destination file's content. -/
inductive Content where
  | empty
  | fragment (bytes : List Nat)
  | complete (pw : PngWrite) (rows : List Nat)
deriving DecidableEq, Repr

/-- The state of the destination path when `write_image` returns. -/
inductive DestState where
  | absent
  | present (c : Content) (isOpen : Bool)
deriving DecidableEq, Repr

/-- How one `write_image` call ends: a C `return` of a bool, or the process
aborting inside `assert`. -/
inductive Outcome where
  | ret (ok : Bool)
  | abort
deriving DecidableEq, Repr

/-- `write_image` (gifsplit.c:81-152). Follows the C control flow:
`fopen` failure returns false with no file created; `fopen("wb")` success
creates/truncates the file; the two allocation failures return false leaving
the (empty) file open; a libpng error caught at the `setjmp` handler closes
the file, keeping whatever bytes were written, and returns false; the
indexed path with no colormap trips `assert` and aborts; otherwise the rows
are rebuilt in the scratch array and the complete image is written. -/
def write_image (img : GifSplitImage) (env : Env) (s : List Nat) :
    Outcome × DestState × List Nat :=
  if env.fopenOk = false then (Outcome.ret false, DestState.absent, s)
  else if env.createOk = false then
    (Outcome.ret false, DestState.present Content.empty true, s)
  else if env.infoOk = false then
    (Outcome.ret false, DestState.present Content.empty true, s)
  else if env.pngLibError = true then
    (Outcome.ret false, DestState.present (Content.fragment env.bytesWritten) false, s)
  else
    match encodeCalls img with
    | none => (Outcome.abort, DestState.present Content.empty true, s)
    | some pw =>
      let s' := fillRows pw.stride img.Height s
      (Outcome.ret true,
       DestState.present (Content.complete pw (s'.take img.Height)) false, s')

/-- The spec's cleanup requirement on the destination: deleted, or truncated
to empty, so that nothing could be mistaken for valid output. -/
def cleanedUp : DestState → Bool
  | DestState.absent => true
  | DestState.present Content.empty _ => true
  | DestState.present _ _ => false

/-- libgifsplit's `GifSplitInfo`: the fields `main` reads. -/
structure GifSplitInfo where
  HasErrors : Bool
  LoopCount : Int
deriving DecidableEq, Repr

/-- The row-pointer scratch array allocated once at gifsplit.c:218-219:
`malloc(sizeof(*row_pointers) * gif->SHeight)`, one entry per container
screen-height row. -/
def allocRowPointers (sheight : Nat) : List Nat := List.replicate sheight 0

/-- How the end-of-run report (gifsplit.c:237-244) ends. -/
inductive EndResult where
  | nullDeref
  | exitHasErrors
  | printedLoops (lc : Int)
  | skippedLoops
deriving DecidableEq, Repr

/-- The end-of-run report (gifsplit.c:237-244): `info->HasErrors` is
dereferenced first (a `none` handle crashes here), then the run exits 1 on
`HasErrors`, then the `if (info)` guard is tested before printing the loop
count. -/
def endOfRun (info : Option GifSplitInfo) : EndResult :=
  match info with
  | none => EndResult.nullDeref
  | some i =>
    if i.HasErrors then EndResult.exitHasErrors
    else if (some i : Option GifSplitInfo).isSome then EndResult.printedLoops i.LoopCount
    else EndResult.skippedLoops

/-- How the frame loop at gifsplit.c:225-235 ends: an abort inside a
`write_image` call, a `return 1` after a failed write, or normal exhaustion
of the frame source. `files` records each attempted destination's final
state by frame index; `delays` the `printf("%d delay=%d")` reports. -/
inductive LoopResult where
  | aborted (files : List (Nat × DestState)) (delays : List (Nat × Nat))
  | failed (files : List (Nat × DestState)) (delays : List (Nat × Nat))
  | done (files : List (Nat × DestState)) (delays : List (Nat × Nat)) (s : List Nat)
deriving DecidableEq, Repr

/-- The frame loop at gifsplit.c:225-235: write each frame to its own
output file (index `i` names `output_base` ++ zero-padded `i` ++ ".png"),
return 1 on a failed write, and report the frame's delay after each
successful write. -/
def mainLoop (envOf : Nat → Env) : List GifSplitImage → Nat → List Nat → LoopResult
  | [], _, s => LoopResult.done [] [] s
  | f :: fs, i, s =>
    match write_image f (envOf i) s with
    | (Outcome.abort, d, _) => LoopResult.aborted [(i, d)] []
    | (Outcome.ret false, d, _) => LoopResult.failed [(i, d)] []
    | (Outcome.ret true, d, s') =>
      match mainLoop envOf fs (i + 1) s' with
      | LoopResult.aborted files delays =>
        LoopResult.aborted ((i, d) :: files) ((i, f.DelayTime) :: delays)
      | LoopResult.failed files delays =>
        LoopResult.failed ((i, d) :: files) ((i, f.DelayTime) :: delays)
      | LoopResult.done files delays s'' =>
        LoopResult.done ((i, d) :: files) ((i, f.DelayTime) :: delays) s''

/-- How a whole run of `main` (after open/handle setup) ends. -/
inductive RunResult where
  | abortedRun (files : List (Nat × DestState)) (delays : List (Nat × Nat))
  | nullCrash (files : List (Nat × DestState)) (delays : List (Nat × Nat))
  | exited (code : Nat) (files : List (Nat × DestState)) (delays : List (Nat × Nat))
      (loops : Option Int)
deriving DecidableEq, Repr

/-- `main` from the frame loop on (gifsplit.c:218-249): allocate the scratch
row-pointer array from the container screen height, drain the frame source
writing one file per frame, then run the end-of-run report on the result of
`GifSplitterGetInfo`. Written files are never deleted. -/
def runMain (envOf : Nat → Env) (frames : List GifSplitImage)
    (info : Option GifSplitInfo) (sheight : Nat) : RunResult :=
  match mainLoop envOf frames 0 (allocRowPointers sheight) with
  | LoopResult.aborted files delays => RunResult.abortedRun files delays
  | LoopResult.failed files delays => RunResult.exited 1 files delays none
  | LoopResult.done files delays _ =>
    match endOfRun info with
    | EndResult.nullDeref => RunResult.nullCrash files delays
    | EndResult.exitHasErrors => RunResult.exited 1 files delays none
    | EndResult.printedLoops lc => RunResult.exited 0 files delays (some lc)
    | EndResult.skippedLoops => RunResult.exited 0 files delays none

/-- The environment in which every external call of `write_image` succeeds. -/
def okEnv : Env :=
  { fopenOk := true, createOk := true, infoOk := true,
    pngLibError := false, bytesWritten := [] }

/-- Whether `n` is a power of two, by the same bit test the C loop uses. -/
def isPow2 (n : Nat) : Bool := (n != 0) && (n &&& (n - 1) == 0)

/-- A 3-entry colormap with 2 bits per pixel, used as a concrete input. -/
def cmW : ColorMapObject :=
  { BitsPerPixel := 2, ColorCount := 3, Colors := [(1, 2, 3), (4, 5, 6), (7, 8, 9)] }

/-- A concrete 2×2 indexed frame with transparent index 1. -/
def imgW : GifSplitImage :=
  { IsTruecolor := false, Width := 2, Height := 2, ColorMap := some cmW,
    TransparentColorIndex := 1, RasterData := [0, 1, 2, 0], DelayTime := 10,
    UsedLocalColormap := true }

/-- A concrete 1×1 truecolor frame. -/
def imgT : GifSplitImage :=
  { IsTruecolor := true, Width := 1, Height := 1, ColorMap := none,
    TransparentColorIndex := -1, RasterData := [10, 20, 30, 255], DelayTime := 4,
    UsedLocalColormap := false }

/-- An indexed frame whose colormap is missing (the assert's target). -/
def imgNC : GifSplitImage :=
  { IsTruecolor := false, Width := 1, Height := 1, ColorMap := none,
    TransparentColorIndex := -1, RasterData := [0], DelayTime := 0,
    UsedLocalColormap := false }

/-- An environment where libpng fails internally after one byte is written. -/
def errEnv : Env :=
  { fopenOk := true, createOk := true, infoOk := true,
    pngLibError := true, bytesWritten := [137] }

set_option synthInstance.maxSize 1024 in
/-- C1: the bit-depth rounding loop on the indexed path maps every
`bits_per_pixel` in 1..8 to the next power of two (1→1, 2→2, 3→4, 4→4,
5→8, 8→8), is idempotent on powers of two, monotonic, and never returns a
value below the input or above 8. -/
theorem roundBpp_correct :
    roundBpp 1 = 1 ∧ roundBpp 2 = 2 ∧ roundBpp 3 = 4 ∧ roundBpp 4 = 4 ∧
    roundBpp 5 = 8 ∧ roundBpp 8 = 8 ∧
    ∀ b ≤ 8, 1 ≤ b →
      isPow2 (roundBpp b) = true ∧ b ≤ roundBpp b ∧ roundBpp b ≤ 8 ∧
      (∀ m < roundBpp b, b ≤ m → isPow2 m = false) ∧
      (isPow2 b = true → roundBpp b = b) ∧
      roundBpp (roundBpp b) = roundBpp b ∧
      ∀ c ≤ 8, b ≤ c → roundBpp b ≤ roundBpp c := by
  decide

/-- C1 witness: the rounding facts at the concrete input 5. -/
theorem roundBpp_correct_witness :
    isPow2 (roundBpp 5) = true ∧ 5 ≤ roundBpp 5 ∧ roundBpp 5 ≤ 8 :=
  let h := roundBpp_correct.2.2.2.2.2.2 5 (by decide) (by decide)
  ⟨h.1, h.2.1, h.2.2.1⟩

theorem trans_alpha_length (k : Nat) : (trans_alpha k).length = k + 1 := by
  simp [trans_alpha]

theorem trans_alpha_get_lt (k i : Nat) (h : i < k) :
    (trans_alpha k)[i]? = some 255 := by
  rw [trans_alpha, List.getElem?_append]
  simp [List.getElem?_replicate, h]

theorem trans_alpha_get_last (k : Nat) : (trans_alpha k)[k]? = some 0 := by
  rw [trans_alpha, List.getElem?_append]
  simp

/-- What `encodeCalls` hands over on the indexed path, spelled out. -/
theorem encodeCalls_indexed (img : GifSplitImage) (cm : ColorMapObject)
    (h1 : img.IsTruecolor = false) (h2 : img.ColorMap = some cm) :
    encodeCalls img = some
      { width := img.Width, height := img.Height,
        bitDepth := roundBpp cm.BitsPerPixel, colorType := 3,
        palette := some (cm.Colors.take cm.ColorCount),
        trans := if img.TransparentColorIndex = -1 then none
                 else some (trans_alpha img.TransparentColorIndex.toNat),
        stride := img.Width, packing := true } := by
  simp [encodeCalls, h1, h2]

/-- C2: on the indexed path, a transparent index `k ≥ 0` makes `write_image`
hand libpng a transparency table of length exactly `k + 1` whose entries
below `k` are 255 (opaque) and whose entry at `k` is 0 (transparent), and
the `-1` sentinel makes it hand over no transparency table at all. -/
theorem trans_table_correct (img : GifSplitImage) (cm : ColorMapObject)
    (h1 : img.IsTruecolor = false) (h2 : img.ColorMap = some cm) :
    (∀ k : Nat, img.TransparentColorIndex = (k : Int) →
      ∃ pw, encodeCalls img = some pw ∧
        pw.trans = some (trans_alpha k) ∧
        (trans_alpha k).length = k + 1 ∧
        (∀ i < k, (trans_alpha k)[i]? = some 255) ∧
        (trans_alpha k)[k]? = some 0) ∧
    (img.TransparentColorIndex = -1 →
      ∃ pw, encodeCalls img = some pw ∧ pw.trans = none) := by
  constructor
  · intro k hk
    refine ⟨_, encodeCalls_indexed img cm h1 h2, ?_, trans_alpha_length k,
      fun i hi => trans_alpha_get_lt k i hi, trans_alpha_get_last k⟩
    show (if img.TransparentColorIndex = -1 then none
          else some (trans_alpha img.TransparentColorIndex.toNat)) =
        some (trans_alpha k)
    rw [hk, if_neg (by omega)]
    simp
  · intro hk
    refine ⟨_, encodeCalls_indexed img cm h1 h2, ?_⟩
    show (if img.TransparentColorIndex = -1 then none
          else some (trans_alpha img.TransparentColorIndex.toNat)) = none
    rw [if_pos hk]

/-- C2 witness: the table for the concrete frame `imgW` (transparent index 1)
has length 2 with entries 255 then 0. -/
theorem trans_table_correct_witness :
    (trans_alpha 1).length = 1 + 1 ∧ (trans_alpha 1)[1]? = some 0 := by
  obtain ⟨pw, _, _, hlen, _, hlast⟩ :=
    (trans_table_correct imgW cmW rfl rfl).1 1 rfl
  exact ⟨hlen, hlast⟩

/-- C5: on the indexed path the palette handed to libpng is the colormap's
color list unchanged — same length as the entry count, same order. -/
theorem palette_order (img : GifSplitImage) (cm : ColorMapObject)
    (h1 : img.IsTruecolor = false) (h2 : img.ColorMap = some cm)
    (h3 : cm.ColorCount = cm.Colors.length) :
    ∃ pw, encodeCalls img = some pw ∧ pw.palette = some cm.Colors ∧
      cm.Colors.length = cm.ColorCount := by
  refine ⟨_, encodeCalls_indexed img cm h1 h2, ?_, h3.symm⟩
  show some (cm.Colors.take cm.ColorCount) = some cm.Colors
  rw [h3, List.take_length]

/-- C5 witness: the palette for the concrete frame `imgW` is its 3-entry
colormap unchanged. -/
theorem palette_order_witness :
    ∃ pw, encodeCalls imgW = some pw ∧ pw.palette = some cmW.Colors ∧
      cmW.Colors.length = cmW.ColorCount :=
  palette_order imgW cmW rfl rfl rfl

/-- What `encodeCalls` hands over on the truecolor path, spelled out. -/
theorem encodeCalls_truecolor (img : GifSplitImage) (ht : img.IsTruecolor = true) :
    encodeCalls img = some
      { width := img.Width, height := img.Height, bitDepth := 8, colorType := 6,
        palette := none, trans := none, stride := 4 * img.Width,
        packing := false } := by
  simp [encodeCalls, ht]

/-- A structurally sound frame (truecolor, or indexed with a colormap)
survives the assert: `encodeCalls` yields a write. -/
theorem encodeCalls_isSome (img : GifSplitImage)
    (hwf : img.IsTruecolor = true ∨ img.ColorMap.isSome = true) :
    ∃ pw, encodeCalls img = some pw := by
  by_cases ht : img.IsTruecolor = true
  · exact ⟨_, encodeCalls_truecolor img ht⟩
  · have hf : img.IsTruecolor = false := by simpa using ht
    rcases hwf with ht' | hc
    · exact absurd ht' ht
    · cases hcm : img.ColorMap with
      | none => rw [hcm] at hc; simp at hc
      | some cm => exact ⟨_, encodeCalls_indexed img cm hf hcm⟩

theorem fillRowsAux_length (stride n : Nat) :
    ∀ i p s, (fillRowsAux stride n i p s).length = s.length := by
  induction n with
  | zero => intro i p s; rfl
  | succ n ih =>
    intro i p s
    show (fillRowsAux stride n (i + 1) (p + stride) (s.set i p)).length = s.length
    rw [ih, List.length_set]

/-- Entry `j` of the scratch array after the row loop starting at index `i`
with pointer `p`: rows in `[i, i+n)` hold their offsets, everything else is
untouched (and out-of-range writes are dropped). -/
theorem fillRowsAux_getElem? (stride n : Nat) :
    ∀ i p s j,
      (fillRowsAux stride n i p s)[j]? =
        if i ≤ j ∧ j < i + n ∧ j < s.length then some (p + (j - i) * stride)
        else s[j]? := by
  induction n with
  | zero =>
    intro i p s j
    rw [fillRowsAux, if_neg (by omega)]
  | succ n ih =>
    intro i p s j
    show (fillRowsAux stride n (i + 1) (p + stride) (s.set i p))[j]? = _
    rw [ih, List.length_set]
    by_cases h1 : i + 1 ≤ j ∧ j < i + 1 + n ∧ j < s.length
    · rw [if_pos h1, if_pos ⟨by omega, by omega, h1.2.2⟩]
      have hd : j - i = j - (i + 1) + 1 := by omega
      rw [hd, Nat.succ_mul]
      congr 1
      ring
    · rw [if_neg h1, List.getElem?_set]
      by_cases hij : i = j
      · subst hij
        rw [if_pos rfl]
        by_cases hlen : i < s.length
        · rw [if_pos hlen, if_pos ⟨le_refl i, by omega, hlen⟩]
          simp
        · rw [if_neg hlen, if_neg (by omega),
              List.getElem?_eq_none (by omega)]
      · rw [if_neg hij, if_neg (by omega)]

/-- Entry `j` of the scratch array after the whole row loop. -/
theorem fillRows_getElem? (stride height : Nat) (s : List Nat) (j : Nat) :
    (fillRows stride height s)[j]? =
      if j < height ∧ j < s.length then some (j * stride) else s[j]? := by
  rw [fillRows, fillRowsAux_getElem?]
  by_cases h : j < height ∧ j < s.length
  · rw [if_pos ⟨by omega, by omega, h.2⟩, if_pos h]
    simp
  · rw [if_neg (by omega), if_neg h]

/-- Rows at and beyond `height` are never touched by the row loop. -/
theorem fillRows_untouched (stride height : Nat) (s : List Nat) (j : Nat)
    (h : height ≤ j) : (fillRows stride height s)[j]? = s[j]? := by
  rw [fillRows_getElem?, if_neg (by omega)]

/-- The rows libpng reads are exactly the offsets `0, stride, 2*stride, ...`,
whatever the scratch array held before the call. -/
theorem fillRows_take (stride height : Nat) (s : List Nat)
    (hs : height ≤ s.length) :
    (fillRows stride height s).take height =
      (List.range height).map (fun i => i * stride) := by
  apply List.ext_getElem?
  intro j
  rw [List.getElem?_take, List.getElem?_map]
  by_cases hj : j < height
  · rw [if_pos hj, fillRows_getElem?, if_pos ⟨hj, by omega⟩,
        List.getElem?_range hj]
    rfl
  · rw [if_neg hj, List.getElem?_eq_none (by simpa using hj)]
    rfl

/-- The success path of `write_image`, given that every external call
succeeds and the frame survives the assert. -/
theorem write_image_success (img : GifSplitImage) (env : Env) (s : List Nat)
    (h1 : env.fopenOk = true) (h2 : env.createOk = true) (h3 : env.infoOk = true)
    (h4 : env.pngLibError = false) (pw : PngWrite)
    (hec : encodeCalls img = some pw) :
    write_image img env s =
      (Outcome.ret true,
       DestState.present
         (Content.complete pw ((fillRows pw.stride img.Height s).take img.Height))
         false,
       fillRows pw.stride img.Height s) := by
  simp only [write_image, h1, h2, h3, h4, hec]
  norm_num

/-- C6: stride is `4 * width` bytes on the truecolor path and `width` bytes
on the indexed path, and the row-pointer sequence handed to libpng is
rebuilt on every call, entry `i` being the offset `i * stride` into the
frame's raster — regardless of what the scratch array held before. -/
theorem stride_rows_correct (img : GifSplitImage) (env : Env) (s : List Nat)
    (h1 : env.fopenOk = true) (h2 : env.createOk = true) (h3 : env.infoOk = true)
    (h4 : env.pngLibError = false)
    (hwf : img.IsTruecolor = true ∨ img.ColorMap.isSome = true)
    (hs : img.Height ≤ s.length) :
    ∃ pw rows,
      write_image img env s =
        (Outcome.ret true, DestState.present (Content.complete pw rows) false,
         fillRows pw.stride img.Height s) ∧
      pw.stride = (if img.IsTruecolor = true then 4 * img.Width else img.Width) ∧
      rows = (List.range img.Height).map (fun i => i * pw.stride) := by
  obtain ⟨pw, hec⟩ := encodeCalls_isSome img hwf
  refine ⟨pw, (fillRows pw.stride img.Height s).take img.Height,
    write_image_success img env s h1 h2 h3 h4 pw hec, ?_, ?_⟩
  · by_cases ht : img.IsTruecolor = true
    · rw [encodeCalls_truecolor img ht] at hec
      cases hec
      rw [if_pos ht]
    · have hf : img.IsTruecolor = false := by simpa using ht
      rcases hwf with ht' | hc
      · exact absurd ht' ht
      · cases hcm : img.ColorMap with
        | none => rw [hcm] at hc; simp at hc
        | some cm =>
          rw [encodeCalls_indexed img cm hf hcm] at hec
          cases hec
          rw [if_neg ht]
  · exact fillRows_take pw.stride img.Height s hs

/-- C6 witness: the concrete truecolor frame `imgT` written into a 2-slot
scratch array gets stride 4 and the single row offset 0. -/
theorem stride_rows_correct_witness :
    ∃ pw rows,
      write_image imgT okEnv [7, 7] =
        (Outcome.ret true, DestState.present (Content.complete pw rows) false,
         fillRows pw.stride imgT.Height [7, 7]) ∧
      pw.stride = (if imgT.IsTruecolor = true then 4 * imgT.Width else imgT.Width) ∧
      rows = (List.range imgT.Height).map (fun i => i * pw.stride) :=
  stride_rows_correct imgT okEnv [7, 7] rfl rfl rfl rfl (Or.inl rfl) (by decide)

/-- C3 counterexample: a libpng internal error while writing the concrete
frame `imgT` makes `write_image` return failure with the destination still
holding the partially written byte — neither deleted nor truncated. -/
theorem cleanup_cex :
    errEnv.fopenOk = true ∧
    (write_image imgT errEnv []).1 = Outcome.ret false ∧
    cleanedUp (write_image imgT errEnv []).2.1 = false := by
  decide

/-- C3 (amended): on every failure after the destination was opened, the
file is left at the destination — never deleted or truncated; in particular
the libpng-error path closes it with the partially written bytes, and the
allocation-failure paths leave the empty file open. -/
theorem failure_leaves_file (img : GifSplitImage) (env : Env) (s : List Nat)
    (h1 : env.fopenOk = true)
    (h2 : (write_image img env s).1 = Outcome.ret false) :
    (∃ c o, (write_image img env s).2.1 = DestState.present c o) ∧
    (env.createOk = true → env.infoOk = true → env.pngLibError = true →
      (write_image img env s).2.1 =
        DestState.present (Content.fragment env.bytesWritten) false) := by
  obtain ⟨fo, co, io, pe, bw⟩ := env
  simp only at h1
  subst h1
  cases co <;> cases io <;> cases pe <;> simp_all [write_image]
  all_goals cases hec : encodeCalls img <;> simp_all

/-- C3 witness: the amended claim at the concrete libpng-error run. -/
theorem failure_leaves_file_witness :
    (∃ c o, (write_image imgT errEnv []).2.1 = DestState.present c o) ∧
    (errEnv.createOk = true → errEnv.infoOk = true → errEnv.pngLibError = true →
      (write_image imgT errEnv []).2.1 =
        DestState.present (Content.fragment errEnv.bytesWritten) false) :=
  failure_leaves_file imgT errEnv [] rfl (by decide)

/-- C4 counterexample: the concrete indexed frame `imgNC` with no colormap
makes `write_image` hit `assert(img->ColorMap)` and abort the process — it
does not return a structured failure. -/
theorem assert_cex :
    imgNC.IsTruecolor = false ∧ imgNC.ColorMap = none ∧
    (write_image imgNC okEnv []).1 = Outcome.abort ∧
    (write_image imgNC okEnv []).1 ≠ Outcome.ret false := by
  decide

/-- C4 (amended): an indexed frame with no color table does not produce a
returned structural error: once the destination and the two libpng
allocations succeed, `write_image` trips `assert(img->ColorMap)` and the
whole process aborts. -/
theorem assert_aborts (img : GifSplitImage) (env : Env) (s : List Nat)
    (ht : img.IsTruecolor = false) (hc : img.ColorMap = none)
    (h1 : env.fopenOk = true) (h2 : env.createOk = true) (h3 : env.infoOk = true)
    (h4 : env.pngLibError = false) :
    (write_image img env s).1 = Outcome.abort := by
  have hec : encodeCalls img = none := by simp [encodeCalls, ht, hc]
  simp [write_image, h1, h2, h3, h4, hec]

/-- C4 witness: the amended claim at the concrete frame `imgNC`. -/
theorem assert_aborts_witness :
    (write_image imgNC okEnv []).1 = Outcome.abort :=
  assert_aborts imgNC okEnv [] rfl rfl rfl rfl rfl rfl

/-- C8: when `fopen` fails, `write_image` returns failure and no file is
created at the destination. -/
theorem fopen_fail (img : GifSplitImage) (env : Env) (s : List Nat)
    (h : env.fopenOk = false) :
    (write_image img env s).1 = Outcome.ret false ∧
    (write_image img env s).2.1 = DestState.absent := by
  simp [write_image, h]

/-- An environment whose destination cannot be opened. -/
def noOpenEnv : Env :=
  { fopenOk := false, createOk := true, infoOk := true,
    pngLibError := false, bytesWritten := [] }

/-- C8 witness: the concrete frame `imgT` against an unopenable destination. -/
theorem fopen_fail_witness :
    (write_image imgT noOpenEnv []).1 = Outcome.ret false ∧
    (write_image imgT noOpenEnv []).2.1 = DestState.absent :=
  fopen_fail imgT noOpenEnv [] rfl

/-- C9: the row-pointer scratch array is allocated with exactly the
container's screen-height entries; the row loop writes exactly the indices
below the frame's height (rows at or above it are untouched), so every
write is in bounds precisely when the frame's height is at most the screen
height; and no `write_image` call validates this — its outcome is the same
whatever the scratch array is. -/
theorem scratch_bounds (img : GifSplitImage) (env : Env) (sheight : Nat) :
    (allocRowPointers sheight).length = sheight ∧
    ((∀ j < img.Height, j < (allocRowPointers sheight).length) ↔
      img.Height ≤ sheight) ∧
    (∀ stride s j, img.Height ≤ j →
      (fillRows stride img.Height s)[j]? = s[j]?) ∧
    ∀ s₁ s₂ : List Nat, (write_image img env s₁).1 = (write_image img env s₂).1 := by
  refine ⟨by simp [allocRowPointers], ?_,
    fun st s j h => fillRows_untouched st img.Height s j h, ?_⟩
  · simp only [allocRowPointers, List.length_replicate]
    constructor
    · intro h
      rcases Nat.eq_zero_or_pos img.Height with h0 | h0
      · omega
      · have := h (img.Height - 1) (by omega)
        omega
    · intro h j hj
      omega
  · intro s₁ s₂
    simp only [write_image]
    split_ifs <;> try rfl
    cases encodeCalls img <;> rfl

/-- The frame loop under an all-success environment on structurally sound
frames: every frame is written to its own complete file, in source order,
with its delay reported, and the loop ends by draining the source. -/
theorem mainLoop_ok (frames : List GifSplitImage)
    (hwf : ∀ f ∈ frames, f.IsTruecolor = true ∨ f.ColorMap.isSome = true) :
    ∀ i s, ∃ files s',
      mainLoop (fun _ => okEnv) frames i s =
        LoopResult.done files
          ((List.range' i frames.length).zip (frames.map GifSplitImage.DelayTime)) s' ∧
      files.map Prod.fst = List.range' i frames.length ∧
      ∀ fd ∈ files, ∃ pw rows,
        fd.2 = DestState.present (Content.complete pw rows) false := by
  induction frames with
  | nil => intro i s; exact ⟨[], s, rfl, rfl, by simp⟩
  | cons f fs ih =>
    intro i s
    obtain ⟨pw, hec⟩ := encodeCalls_isSome f (hwf f (by simp))
    have hw := write_image_success f okEnv s rfl rfl rfl rfl pw hec
    obtain ⟨files, s', hml, hfst, hpres⟩ :=
      ih (fun g hg => hwf g (by simp [hg])) (i + 1) (fillRows pw.stride f.Height s)
    refine ⟨(i, DestState.present
        (Content.complete pw ((fillRows pw.stride f.Height s).take f.Height))
        false) :: files, s', ?_, ?_, ?_⟩
    · show mainLoop (fun _ => okEnv) (f :: fs) i s = _
      simp only [mainLoop]
      rw [hw]
      simp [hml, List.range'_succ]
    · simp [hfst, List.range'_succ]
    · intro fd hfd
      rcases List.mem_cons.mp hfd with h | h
      · subst h
        exact ⟨pw, _, rfl⟩
      · exact hpres fd h

/-- C7: when the frame source yields all its frames and every encode
succeeds, but the aggregate metadata reports errors, the run writes every
frame to its own complete output file in source order, reports each delay,
and exits with status 1 — leaving every written file in place. -/
theorem run_has_errors (frames : List GifSplitImage) (info : GifSplitInfo)
    (sheight : Nat)
    (hwf : ∀ f ∈ frames, f.IsTruecolor = true ∨ f.ColorMap.isSome = true)
    (herr : info.HasErrors = true) :
    ∃ files,
      runMain (fun _ => okEnv) frames (some info) sheight =
        RunResult.exited 1 files
          ((List.range frames.length).zip (frames.map GifSplitImage.DelayTime))
          none ∧
      files.map Prod.fst = List.range frames.length ∧
      ∀ fd ∈ files, ∃ pw rows,
        fd.2 = DestState.present (Content.complete pw rows) false := by
  obtain ⟨files, s', hml, hfst, hpres⟩ :=
    mainLoop_ok frames hwf 0 (allocRowPointers sheight)
  have hend : endOfRun (some info) = EndResult.exitHasErrors := by
    simp [endOfRun, herr]
  refine ⟨files, ?_, ?_, hpres⟩
  · simp only [runMain, hml, hend]
    rw [List.range_eq_range']
  · rw [hfst, List.range_eq_range']

/-- The aggregate metadata of a run whose decode reported errors. -/
def infoErr : GifSplitInfo := { HasErrors := true, LoopCount := 0 }

/-- C7 witness: one concrete truecolor frame, aggregate metadata with
`HasErrors` set — the file is written, the delay reported, the run exits 1. -/
theorem run_has_errors_witness :
    ∃ files,
      runMain (fun _ => okEnv) [imgT] (some infoErr) 1 =
        RunResult.exited 1 files
          ((List.range [imgT].length).zip ([imgT].map GifSplitImage.DelayTime))
          none ∧
      files.map Prod.fst = List.range [imgT].length ∧
      ∀ fd ∈ files, ∃ pw rows,
        fd.2 = DestState.present (Content.complete pw rows) false :=
  run_has_errors [imgT] infoErr 1
    (by intro f hf; rw [List.mem_singleton] at hf; subst hf; exact Or.inl rfl) rfl

/-- C10: the end-of-run report dereferences `info->HasErrors` before the
null check guarding the loop-count print: a null handle crashes there, so
any run that reaches the later `if (info)` guard has a non-null handle and
the guard can never be false. -/
theorem info_deref_before_guard :
    endOfRun none = EndResult.nullDeref ∧
    (∀ info, endOfRun info ≠ EndResult.skippedLoops) ∧
    ∀ i : GifSplitInfo, endOfRun (some i) ≠ EndResult.nullDeref := by
  refine ⟨rfl, ?_, ?_⟩
  · intro info
    cases info with
    | none => simp [endOfRun]
    | some i =>
      simp only [endOfRun, Option.isSome_some]
      split_ifs <;> simp
  · intro i
    simp only [endOfRun, Option.isSome_some]
    split_ifs <;> simp
